import Mathlib

/-!
Verification of the releasebot Release Decision Engine against its
natural-language specification.  The TypeScript sources are embedded
shallowly: pure functions become Lean functions, the effectful workflow is
modelled by explicit outcome parameters for its external collaborators
(git subprocesses, the OpenAI HTTP client, the changelog file store), and
JavaScript numbers that carry confidences/thresholds are modelled as
rationals.  String operations are modelled on `List Char`, matching the
ASCII behaviour of the JavaScript string methods the sources use.
-/

namespace Releasebot

/-! ## String helpers mirroring the JavaScript string methods used by the code -/

/-- Substring occurrence test on character lists: `sub` occurs as a
contiguous run inside `l`. -/
def listInfix (sub : List Char) : List Char → Bool
  | [] => sub.isEmpty
  | c :: t => sub.isPrefixOf (c :: t) || listInfix sub t

/-- JavaScript `String.prototype.includes`: substring test. -/
def strIncludes (s sub : String) : Bool :=
  listInfix sub.toList s.toList

/-- JavaScript `String.prototype.startsWith`. -/
def strStartsWith (s pre : String) : Bool :=
  pre.toList.isPrefixOf s.toList

/-- JavaScript `String.prototype.toLowerCase` on the ASCII strings the code handles. -/
def jsToLower (s : String) : String :=
  String.mk (s.toList.map Char.toLower)

/-- JavaScript `String.prototype.trim` (whitespace from both ends). -/
def jsTrim (s : String) : String :=
  String.mk (((s.toList.dropWhile Char.isWhitespace).reverse.dropWhile Char.isWhitespace).reverse)

/-! ## Data model (src/types/index.ts) -/

/-- `VersionBumpType` from src/types/index.ts. -/
inductive VersionBump where
  | major
  | minor
  | patch
  | none
deriving DecidableEq, Repr

/-- `VersioningStrategy` from src/types/index.ts. -/
inductive Strategy where
  | conventional
  | ai
  | hybrid
deriving DecidableEq, Repr

/-- The strategy's string form, as stored in `ReleaseResult.analysisStrategy`. -/
def strategyString : Strategy → String
  | .conventional => "conventional"
  | .ai => "ai"
  | .hybrid => "hybrid"

/-- `GitFileChange.status` from src/types/index.ts. -/
inductive FileStatus where
  | added
  | modified
  | deleted
  | renamed
  | copied
deriving DecidableEq, Repr

/-- `GitFileChange` from src/types/index.ts. -/
structure GitFileChange where
  path : String
  status : FileStatus
  additions : Nat
  deletions : Nat
deriving DecidableEq, Repr

/-- Author/committer identity of a commit; dates are epoch seconds. -/
structure PersonInfo where
  name : String
  email : String
  date : Int
deriving DecidableEq, Repr

/-- `CommitInfo` from src/types/index.ts (the `pullRequest` association is
projected to its number, the only part the engine reads). -/
structure CommitInfo where
  sha : String
  message : String
  author : PersonInfo
  committer : PersonInfo
  files : List GitFileChange
  parents : List String
  pullRequest : Option Nat := Option.none
deriving DecidableEq, Repr

/-- `GitDiff` from src/types/index.ts; the date range is kept as a pair of
epoch seconds. -/
structure GitDiff where
  commits : List CommitInfo
  fileChanges : List GitFileChange
  totalAdditions : Nat
  totalDeletions : Nat
  dateFrom : Int
  dateTo : Int
  contributors : List String
deriving DecidableEq, Repr

/-- `ChangelogEntry` from src/types/index.ts, projected to the fields the
engine reads and writes.  `category` is a plain string because
`AIAnalyzer.parseAIResponse` stores the provider's category string through an
unchecked cast.  The informational `details`/`issues` fields, which no engine
logic ever reads, are omitted. -/
structure ChangelogEntry where
  category : String
  description : String
  commitSha : String
  author : String
  pullRequest : Option Nat := Option.none
  isBreaking : Bool
  scope : Option String := Option.none
  confidence : ℚ
deriving DecidableEq, Repr

/-- `SemanticVersion` from src/types/index.ts. -/
structure SemanticVersion where
  major : Nat
  minor : Nat
  patch : Nat
  prerelease : Option String := Option.none
  build : Option String := Option.none
deriving DecidableEq, Repr

/-! ## VersionAnalyzer change detection (src/types/index.ts, version-analyzer part) -/

/-- The per-commit predicate of `VersionAnalyzer.detectBreakingChanges`: the
message contains `BREAKING CHANGE:`, contains `!:`, or contains `breaking`
after lowercasing. -/
def breakingMessage (m : String) : Bool :=
  strIncludes m "BREAKING CHANGE:" ||
  strIncludes m "!:" ||
  strIncludes (jsToLower m) "breaking"

/-- The per-commit predicate of `VersionAnalyzer.detectNewFeatures`: the
message starts with `feat:` or `feature:`, or contains `feature` after
lowercasing. -/
def featureMessage (m : String) : Bool :=
  strStartsWith m "feat:" ||
  strStartsWith m "feature:" ||
  strIncludes (jsToLower m) "feature"

/-- The per-commit predicate of `VersionAnalyzer.detectBugFixes`: the message
starts with `fix:` or `bugfix:`, or contains `fix` after lowercasing. -/
def fixMessage (m : String) : Bool :=
  strStartsWith m "fix:" ||
  strStartsWith m "bugfix:" ||
  strIncludes (jsToLower m) "fix"

/-- `VersionAnalyzer.detectBreakingChanges`. -/
def detectBreakingChanges (changes : GitDiff) : Bool :=
  changes.commits.any fun commit => breakingMessage commit.message

/-- `VersionAnalyzer.detectNewFeatures`. -/
def detectNewFeatures (changes : GitDiff) : Bool :=
  changes.commits.any fun commit => featureMessage commit.message

/-- `VersionAnalyzer.detectBugFixes`. -/
def detectBugFixes (changes : GitDiff) : Bool :=
  changes.commits.any fun commit => fixMessage commit.message

/-- `VersionAnalyzer.determineVersionBump`. -/
def determineVersionBump (changes : GitDiff) : VersionBump :=
  if detectBreakingChanges changes then .major
  else if detectNewFeatures changes then .minor
  else if detectBugFixes changes then .patch
  else if changes.commits.length > 0 then .patch
  else .none

/-- Modelled from the claim's wording, for the C4 counterexample only: a
commit is breaking-flagged when it carries a `!` before the colon or the
literal substring `BREAKING CHANGE`. -/
def claimBreakingFlagged (message : String) : Bool :=
  strIncludes message "!:" || strIncludes message "BREAKING CHANGE"

/-! ## Conventional commit parsing (src/utils/conventionalCommits.ts) -/

/-- A lowercase ASCII letter, the `[a-z]` character class. -/
def isLowerAZ (c : Char) : Bool :=
  'a' ≤ c && c ≤ 'z'

/-- `ConventionalCommit` from src/utils/conventionalCommits.ts. -/
structure ConventionalCommit where
  type : String
  scope : Option String
  description : String
  isBreaking : Bool
  rawMessage : String
deriving DecidableEq, Repr

/-- `categorizeCommitType`: ordered case-insensitive prefix match, `chore`
as the fallback. -/
def categorizeCommitType (m : String) : String :=
  let lower := jsToLower m
  if strStartsWith lower "feat" then "feat"
  else if strStartsWith lower "fix" then "fix"
  else if strStartsWith lower "docs" then "docs"
  else if strStartsWith lower "style" then "style"
  else if strStartsWith lower "refactor" then "refactor"
  else if strStartsWith lower "perf" then "perf"
  else if strStartsWith lower "test" then "test"
  else if strStartsWith lower "build" then "build"
  else if strStartsWith lower "ci" then "ci"
  else if strStartsWith lower "chore" then "chore"
  else if strStartsWith lower "revert" then "revert"
  else "chore"

/-- `extractScope`: the regex `^[a-z]+\(([^)]+)\):`, returning the scope
group.  The character classes exclude their follow set, so greedy maximal
munch is equivalent to the regex's backtracking search. -/
def extractScope (m : String) : Option String :=
  let l := m.toList
  let letters := l.takeWhile isLowerAZ
  let r1 := l.drop letters.length
  if letters.isEmpty then Option.none else
  match r1 with
  | '(' :: r2 =>
    let inner := r2.takeWhile (fun c => !(c == ')'))
    let r3 := r2.drop inner.length
    if inner.isEmpty then Option.none else
    match r3 with
    | ')' :: ':' :: _ => some (String.mk inner)
    | _ => Option.none
  | _ => Option.none

/-- The prefix-stripping regex of `cleanCommitMessage`,
`^[a-z]+(\([^)]+\))?!?:\s*`: drop the matched prefix, or return the input
unchanged when the regex does not match.  When the optional scope group
matches but the tail does not, retrying without the group cannot succeed
(the rest then starts with `(`), so no further backtracking is modelled. -/
def stripConventionalPrefix (l : List Char) : List Char :=
  let letters := l.takeWhile isLowerAZ
  let r1 := l.drop letters.length
  if letters.isEmpty then l else
  let tryTail : List Char → Option (List Char) := fun r =>
    match r with
    | '!' :: ':' :: rr => some (rr.dropWhile Char.isWhitespace)
    | ':' :: rr => some (rr.dropWhile Char.isWhitespace)
    | _ => Option.none
  match r1 with
  | '(' :: r2 =>
    let inner := r2.takeWhile (fun c => !(c == ')'))
    let r3 := r2.drop inner.length
    if inner.isEmpty then l else
    (match r3 with
     | ')' :: r4 => (tryTail r4).getD l
     | _ => l)
  | _ => (tryTail r1).getD l

/-- `cleanCommitMessage`: strip the conventional prefix, keep the first
line, trim. -/
def cleanCommitMessage (m : String) : String :=
  let cleaned := stripConventionalPrefix m.toList
  let firstLine := cleaned.takeWhile (fun c => !(c == '\n'))
  jsTrim (String.mk firstLine)

/-- `parseConventionalCommit` from src/utils/conventionalCommits.ts. -/
def parseConventionalCommit (m : String) : ConventionalCommit :=
  { type := categorizeCommitType m
    scope := extractScope m
    description := cleanCommitMessage m
    isBreaking := strIncludes m "BREAKING CHANGE" || strIncludes m "!:"
    rawMessage := m }

/-! ## Version parsing and formatting (version-analyzer part of the sources) -/

/-- Decimal digit list of a natural number, most significant first: the
characters JavaScript template interpolation produces for a non-negative
integer. -/
def natChars (n : Nat) : List Char :=
  if h : n < 10 then [Char.ofNat (48 + n)]
  else natChars (n / 10) ++ [Char.ofNat (48 + n % 10)]
termination_by n
decreasing_by exact Nat.div_lt_self (by omega) (by omega)

/-- Decimal rendering of a natural number. -/
def natStr (n : Nat) : String :=
  String.mk (natChars n)

/-- `parseInt(s, 10)` on an all-digit string. -/
def parseNatDigits (l : List Char) : Nat :=
  l.foldl (fun a c => 10 * a + (c.toNat - 48)) 0

/-- A character of the `[0-9A-Za-z-]` class used for prerelease and build
identifiers. -/
def isIdentChar (c : Char) : Bool :=
  c.isDigit || c.isAlpha || c == '-'

/-- Split a character list on a separator character (like
`String.prototype.split` with a single-character separator). -/
def splitOnChar (sep : Char) : List Char → List (List Char)
  | [] => [[]]
  | c :: cs =>
    let r := splitOnChar sep cs
    if c == sep then [] :: r
    else
      match r with
      | [] => [[c]]
      | h :: t => (c :: h) :: t

/-- Parse `[0-9A-Za-z-]+(\.[0-9A-Za-z-]+)*` by maximal munch over the class
plus dots, validating that every dot-separated component is non-empty.  This
is equivalent to the regex with backtracking because `.` and the class
exclude the follow set (`+` and end of input). -/
def parseIdentSeq (l : List Char) : Option (List Char × List Char) :=
  let run := l.takeWhile (fun c => isIdentChar c || c == '.')
  let rest := l.drop run.length
  if !run.isEmpty && (splitOnChar '.' run).all (fun part => !part.isEmpty) then
    some (run, rest)
  else
    Option.none

/-- Parse the core `(\d+)\.(\d+)\.(\d+)` of the version regex. -/
def parseCore (l : List Char) : Option (Nat × Nat × Nat × List Char) :=
  let d1 := l.takeWhile Char.isDigit
  let r1 := l.drop d1.length
  if d1.isEmpty then Option.none else
  match r1 with
  | '.' :: r1x =>
    let d2 := r1x.takeWhile Char.isDigit
    let r2 := r1x.drop d2.length
    if d2.isEmpty then Option.none else
    match r2 with
    | '.' :: r2x =>
      let d3 := r2x.takeWhile Char.isDigit
      let r3 := r2x.drop d3.length
      if d3.isEmpty then Option.none
      else some (parseNatDigits d1, parseNatDigits d2, parseNatDigits d3, r3)
    | _ => Option.none
  | _ => Option.none

/-- Parse `(?:-(pre))?(?:\+(build))?$` after the core. -/
def parseTail (l : List Char) : Option (Option String × Option String) :=
  match l with
  | [] => some (Option.none, Option.none)
  | '-' :: rest =>
    (match parseIdentSeq rest with
     | Option.none => Option.none
     | some (pre, rest2) =>
       match rest2 with
       | [] => some (some (String.mk pre), Option.none)
       | '+' :: rest3 =>
         (match parseIdentSeq rest3 with
          | some (bld, []) => some (some (String.mk pre), some (String.mk bld))
          | _ => Option.none)
       | _ => Option.none)
  | '+' :: rest =>
    (match parseIdentSeq rest with
     | some (bld, []) => some (Option.none, some (String.mk bld))
     | _ => Option.none)
  | _ => Option.none

/-- The `replace(/^v/, '')` step of `parseVersion`. -/
def stripLeadingV (l : List Char) : List Char :=
  match l with
  | c :: rest => if c == 'v' then rest else l
  | [] => l

/-- `VersionAnalyzer.parseVersion`: the anchored regex
`^(\d+)\.(\d+)\.(\d+)(?:-pre)?(?:\+build)?$` after an optional leading `v`;
errors carry the `VersionError` messages of the source.  The source's
negative-number check is dead code (the regex admits only digits) and is
not modelled. -/
def parseVersion (s : String) : Except String SemanticVersion :=
  if s = "" then .error "Version string cannot be empty"
  else
    let clean := stripLeadingV s.toList
    match parseCore clean with
    | Option.none => .error ("Invalid semantic version format: " ++ s)
    | some (ma, mi, pa, rest) =>
      match parseTail rest with
      | Option.none => .error ("Invalid semantic version format: " ++ s)
      | some (pre, bld) =>
        .ok { major := ma, minor := mi, patch := pa, prerelease := pre, build := bld }

/-- Character list of `VersionAnalyzer.formatVersion` (and of the
identical private `ReleaseWorkflow.formatVersion` helper): `M.m.p`, then
`-prerelease` when present and non-empty, then `+build` likewise. -/
def formatVersionChars (v : SemanticVersion) : List Char :=
  natChars v.major ++ '.' :: natChars v.minor ++ '.' :: natChars v.patch
    ++ (match v.prerelease with
        | some p => if p.isEmpty then [] else '-' :: p.toList
        | Option.none => [])
    ++ (match v.build with
        | some b => if b.isEmpty then [] else '+' :: b.toList
        | Option.none => [])

/-- `formatVersion` without the optional `v` prefix (no claim touches the
prefixed form). -/
def formatVersion (v : SemanticVersion) : String :=
  String.mk (formatVersionChars v)

/-- `VersionAnalyzer.incrementVersion`; any real increment rebuilds the
version from the numeric core only, dropping prerelease and build. -/
def incrementVersion (v : SemanticVersion) (bump : VersionBump) : SemanticVersion :=
  match bump with
  | .none => v
  | .major => { major := v.major + 1, minor := 0, patch := 0 }
  | .minor => { major := v.major, minor := v.minor + 1, patch := 0 }
  | .patch => { major := v.major, minor := v.minor, patch := v.patch + 1 }

/-! ## AIAnalyzer (ai-analyzer part of src/utils/conventionalCommits.ts) -/

/-- `AIAnalysisError`: message, the `retryable` flag (constructor default
`true`), and the wrapped cause projected to its message. -/
structure AIErr where
  message : String
  retryable : Bool := true
  causeMsg : Option String := Option.none
deriving DecidableEq, Repr

/-- A parsed JSON value, the result of `JSON.parse` on the provider's
response body. -/
inductive JValue where
  | jnull
  | jbool (b : Bool)
  | jnum (q : ℚ)
  | jstr (s : String)
  | jarr (elems : List JValue)
  | jobj (fields : List (String × JValue))

/-- JavaScript property lookup `obj[k]` on a parsed JSON object. -/
def getField (fields : List (String × JValue)) (k : String) : Option JValue :=
  (fields.find? (fun p => p.1 == k)).map (fun p => p.2)

/-- Whether a JSON value is a string. -/
def isJStr : JValue → Bool
  | .jstr _ => true
  | _ => false

/-- The per-entry guard of `isValidParsedResponse`: an object whose
`category` and `description` are strings. -/
def isValidChange : JValue → Bool
  | .jobj fs =>
    (match getField fs "category" with
     | some (.jstr _) => true
     | _ => false) &&
    (match getField fs "description" with
     | some (.jstr _) => true
     | _ => false)
  | _ => false

/-- `AIAnalyzer.isValidParsedResponse`: `versionBump` a string,
`confidence` a number, `reasoning` an array of strings, `changes` an array
whose members pass `isValidChange`. -/
def isValidParsedResponse : JValue → Bool
  | .jobj fs =>
    (match getField fs "versionBump" with
     | some (.jstr _) => true
     | _ => false) &&
    (match getField fs "confidence" with
     | some (.jnum _) => true
     | _ => false) &&
    (match getField fs "reasoning" with
     | some (.jarr rs) => rs.all isJStr
     | _ => false) &&
    (match getField fs "changes" with
     | some (.jarr cs) => cs.all isValidChange
     | _ => false)
  | _ => false

/-- String field access with a default, the `change.x ?? d` reads of
`parseAIResponse` (present non-string, non-null values for these optional
fields are unchecked in the source and are coerced to the default here). -/
def jStrField (fs : List (String × JValue)) (k : String) (d : String) : String :=
  match getField fs k with
  | some (.jstr s) => s
  | _ => d

/-- Optional string field access (`change.scope`). -/
def jStrFieldOpt (fs : List (String × JValue)) (k : String) : Option String :=
  match getField fs k with
  | some (.jstr s) => some s
  | _ => Option.none

/-- Boolean field access with default `false` (`change.isBreaking ?? false`). -/
def jBoolField (fs : List (String × JValue)) (k : String) : Bool :=
  match getField fs k with
  | some (.jbool b) => b
  | _ => false

/-- Numeric field access with a default (`change.confidence ?? 0.5`). -/
def jNumField (fs : List (String × JValue)) (k : String) (d : ℚ) : ℚ :=
  match getField fs k with
  | some (.jnum q) => q
  | _ => d

/-- The untyped read of a change object's fields (`[]` for the non-object
values the earlier guard excludes). -/
def objFields : JValue → List (String × JValue)
  | .jobj fs => fs
  | _ => []

/-- The `parsed.changes.map` loop body over one change object. -/
def mapAIChanges (idx : Nat) : List JValue → Except AIErr (List ChangelogEntry)
  | [] => .ok []
  | c :: rest =>
    if jStrField (objFields c) "category" "" = "" ∨
        jStrField (objFields c) "description" "" = "" then
      .error { message := "Invalid change entry at index " ++ natStr idx }
    else
      match mapAIChanges (idx + 1) rest with
      | .error e => .error e
      | .ok entries =>
        .ok ({ category := jStrField (objFields c) "category" ""
               description := jStrField (objFields c) "description" ""
               commitSha := jStrField (objFields c) "commitSha" ""
               author := jStrField (objFields c) "author" "Unknown"
               isBreaking := jBoolField (objFields c) "isBreaking"
               scope := jStrFieldOpt (objFields c) "scope"
               confidence := jNumField (objFields c) "confidence" (1/2) } :: entries)

/-- The validated payload `parseAIResponse` returns.  The informational
`breakingChanges` mapping of the source (all fields defaulted, it cannot
fail) is not modelled. -/
structure ParsedAIResponse where
  versionBump : VersionBump
  confidence : ℚ
  reasoning : List String
  changes : List ChangelogEntry
deriving DecidableEq, Repr

/-- String to `VersionBump`, defined on the strings the validation admits. -/
def toVersionBump (s : String) : VersionBump :=
  if s = "major" then .major
  else if s = "minor" then .minor
  else .patch

/-- `AIAnalyzer.parseAIResponse`.  The response body is modelled after
`JSON.parse`: `Option.none` stands for an unparseable body, in which case
the source's catch clause wraps the `SyntaxError` in an `AIAnalysisError`
with `retryable = false` (the JSON error's own message, appended in the
source, is not modelled).  All validation failures throw `AIAnalysisError`
with the constructor's default `retryable = true`. -/
def parseAIResponse (content : Option JValue) : Except AIErr ParsedAIResponse :=
  match content with
  | Option.none => .error { message := "Failed to parse AI response", retryable := false }
  | some j =>
    if !isValidParsedResponse j then
      .error { message := "Invalid response format from AI" }
    else
      let bump := jStrField (objFields j) "versionBump" ""
      if ¬(bump = "major" ∨ bump = "minor" ∨ bump = "patch") then
        .error { message := "Invalid or missing versionBump in AI response" }
      else
        let conf := jNumField (objFields j) "confidence" 0
        if conf < 0 ∨ 1 < conf then
          .error { message := "Invalid confidence score in AI response" }
        else
          let reasoning := (match getField (objFields j) "reasoning" with
            | some (.jarr rs) => rs.filterMap (fun r => match r with
                | .jstr s => some s
                | _ => Option.none)
            | _ => [])
          let changesJson := (match getField (objFields j) "changes" with
            | some (.jarr cs) => cs
            | _ => [])
          match mapAIChanges 0 changesJson with
          | .error e => .error e
          | .ok changes =>
            .ok { versionBump := toVersionBump bump, confidence := conf
                  reasoning := reasoning, changes := changes }

/-- `AIAnalyzer.calculateConfidence`: penalise empty reasoning, empty
change lists against a non-empty diff, and change/commit ratios outside
`[0.5, 2]`, then clamp to `[0, 1]`. -/
def calculateConfidence (parsed : ParsedAIResponse) (gitDiff : GitDiff) : ℚ :=
  let c1 := if parsed.reasoning.length = 0 then parsed.confidence * (4/5) else parsed.confidence
  let c2 := if parsed.changes.length = 0 ∧ gitDiff.commits.length > 0 then c1 * (7/10) else c1
  let ratio : ℚ :=
    if gitDiff.commits.length > 0 then (parsed.changes.length : ℚ) / (gitDiff.commits.length : ℚ)
    else 0
  let c3 := if ratio < 1/2 ∨ 2 < ratio then c2 * (9/10) else c2
  max 0 (min 1 c3)

/-- `RetryConfig`: attempt bound and backoff delays in milliseconds. -/
structure RetryConfig where
  maxRetries : Nat
  baseDelay : Nat
  maxDelay : Nat
deriving DecidableEq, Repr

/-- The terminal error `executeWithRetry` throws after its last attempt:
non-retryable, wrapping the last underlying error (an absent last error
renders as `undefined`, as JavaScript string interpolation does). -/
def mkTerminal (rc : RetryConfig) (last : Option AIErr) : AIErr :=
  { message := "Operation failed after " ++ natStr rc.maxRetries ++ " attempts: " ++
      (match last with
       | some e => e.message
       | Option.none => "undefined")
    retryable := false
    causeMsg := last.map (fun e => e.message) }

/-- The loop of `AIAnalyzer.executeWithRetry` over the outcome `f attempt`
of each call of `operation`, with `k` attempts remaining.  Returns the
overall outcome, the list of backoff waits performed (milliseconds), and
the number of attempts consumed. -/
def retryLoop (rc : RetryConfig) (f : Nat → Except AIErr α) :
    Nat → Nat → Option AIErr → Except AIErr α × List Nat × Nat
  | _, 0, last => (.error (mkTerminal rc last), [], 0)
  | attempt, k + 1, _ =>
    match f attempt with
    | .ok a => (.ok a, [], 1)
    | .error e =>
      if e.retryable = false then (.error e, [], 1)
      else if k = 0 then (.error (mkTerminal rc (some e)), [], 1)
      else
        let d := min (rc.baseDelay * 2 ^ (attempt - 1)) rc.maxDelay
        let r := retryLoop rc f (attempt + 1) k (some e)
        (r.1, d :: r.2.1, r.2.2 + 1)

/-- `AIAnalyzer.executeWithRetry`: attempts start at 1 with the configured
attempt budget. -/
def execRetry (rc : RetryConfig) (f : Nat → Except AIErr α) :
    Except AIErr α × List Nat × Nat :=
  retryLoop rc f 1 rc.maxRetries Option.none

/-- The outcome of `executeWithRetry`. -/
def retryOut (rc : RetryConfig) (f : Nat → Except AIErr α) : Except AIErr α :=
  (execRetry rc f).1

/-- The backoff waits `executeWithRetry` performs. -/
def retryWaits (rc : RetryConfig) (f : Nat → Except AIErr α) : List Nat :=
  (execRetry rc f).2.1

/-- The number of attempts `executeWithRetry` consumes. -/
def retryCount (rc : RetryConfig) (f : Nat → Except AIErr α) : Nat :=
  (execRetry rc f).2.2

/-- The backoff schedule: the wait after attempt `i + 1` is
`baseDelay * 2 ^ i` capped at `maxDelay`. -/
def delaysUpTo (rc : RetryConfig) (m : Nat) : List Nat :=
  (List.range m).map (fun i => min (rc.baseDelay * 2 ^ i) rc.maxDelay)

/-- The backoff schedule as seen from attempt `a` onward. -/
def delaysFrom (rc : RetryConfig) (a n : Nat) : List Nat :=
  (List.range n).map (fun i => min (rc.baseDelay * 2 ^ (a - 1 + i)) rc.maxDelay)

/-- The analysis payload of `AIAnalyzer.analyze` that the workflow reads
(model/prompt/token accounting fields are informational and omitted). -/
structure AIAnalysis where
  versionBump : VersionBump
  confidence : ℚ
  reasoning : List String
  changes : List ChangelogEntry
deriving DecidableEq, Repr

/-- `AIAnalyzer.analyze` over the per-attempt call outcomes `call`: an
entry `.ok content` is a completed HTTP call whose body `JSON.parse`s to
`content` (`Option.none` when unparseable); `.error` is the
`AIAnalysisError` classification `callOpenAI` produced for that attempt.
Returns the outcome paired with the number of retry attempts consumed. -/
def aiAnalyze (gitDiff : GitDiff) (rc : RetryConfig)
    (call : Nat → Except AIErr (Option JValue)) : Except AIErr AIAnalysis × Nat :=
  if gitDiff.commits.length = 0 then
    (.error { message := "No commits found in git diff" }, 0)
  else
    match retryOut rc call with
    | .error e => (.error e, retryCount rc call)
    | .ok content =>
      match parseAIResponse content with
      | .error e => (.error e, retryCount rc call)
      | .ok parsed =>
        (.ok { versionBump := parsed.versionBump
               confidence := calculateConfidence parsed gitDiff
               reasoning := parsed.reasoning
               changes := parsed.changes }, retryCount rc call)

/-! ## ReleaseWorkflow (the orchestrator source file) -/

/-- `AIProvider`. -/
inductive Provider where
  | openai
  | anthropic
deriving DecidableEq, Repr

/-- The provider's string form. -/
def providerString : Provider → String
  | .openai => "openai"
  | .anthropic => "anthropic"

/-- `WorkflowConfig`. -/
structure WorkflowConfig where
  mainBranch : String
  featureBranch : String
  githubToken : String
  packageJsonPath : String
  changelogPath : String
  versioningStrategy : Strategy
  aiProvider : Provider
  openaiApiKey : Option String := Option.none
  anthropicApiKey : Option String := Option.none
  aiModel : String
  aiConfidenceThreshold : ℚ
  conventionalTypes : List String
  preRelease : Bool
  preReleaseIdentifier : String
  skipChangelog : Bool
  skipGitTag : Bool
  maxCommitsAnalysis : Int
  debugMode : Bool
deriving DecidableEq, Repr

/-- `WorkflowError`, projected to message and code. -/
structure WorkflowError where
  message : String
  code : String
deriving DecidableEq, Repr

/-- The `AIAnalyzerConfig` the workflow constructs. -/
structure AIConfig where
  apiKey : String
  model : String
  confidenceThreshold : ℚ
deriving DecidableEq, Repr

/-- `ChangelogData`, projected to its rendered markdown (the grouped
entries and summary are consumed only by the out-of-scope changelog
store). -/
structure ChangelogData where
  markdown : String
deriving DecidableEq, Repr

/-- `ReleaseData`. -/
structure ReleaseData where
  releaseBranch : String
  tagName : String
  commitSha : String
deriving DecidableEq, Repr

/-- `GitAnalysisData`. -/
structure GitAnalysisData where
  diff : GitDiff
  commitCount : Nat
deriving DecidableEq, Repr

/-- `VersionAnalysisData`. -/
structure VersionAnalysisData where
  currentVersion : SemanticVersion
  newVersion : SemanticVersion
  versionBump : VersionBump
deriving DecidableEq, Repr

/-- `ChangeAnalysisData`. -/
structure ChangeAnalysisData where
  entries : List ChangelogEntry
  aiConfidence : Option ℚ
  reasoning : List String
  breakingChanges : Bool
deriving DecidableEq, Repr

/-- `ReleaseResult`. -/
structure ReleaseResult where
  version : String
  releaseBranch : String
  versionBump : VersionBump
  changelogEntry : String
  analysisStrategy : String
  aiConfidence : Option ℚ
  reasoning : List String
  commitCount : Nat
  breakingChanges : Bool
  changelogData : Option ChangelogData
deriving DecidableEq, Repr

/-- Outcomes of the workflow's external collaborators for one run: the git
subprocess work of `validateRepository` + `generateDiff`, the AI call
(consumed only when the strategy requires it), the changelog store, and the
release-branch git work. -/
structure WorkflowWorld where
  repoDiff : Except String GitDiff
  aiOutcome : Except AIErr AIAnalysis
  changelogResult : Except String ChangelogData
  releaseBranchResult : Except String ReleaseData

/-- `ReleaseWorkflow.shouldUseAI`. -/
def shouldUseAI (cfg : WorkflowConfig) : Bool :=
  match cfg.versioningStrategy with
  | .ai => true
  | .hybrid => true
  | .conventional => false

/-- `ReleaseWorkflow.createAIAnalyzer`: an analyzer only for the OpenAI
provider with a present, non-empty key (Anthropic is unimplemented). -/
def createAIAnalyzer (cfg : WorkflowConfig) : Option AIConfig :=
  match cfg.aiProvider, cfg.openaiApiKey with
  | .openai, some k =>
    if k = "" then Option.none
    else some { apiKey := k, model := cfg.aiModel, confidenceThreshold := cfg.aiConfidenceThreshold }
  | _, _ => Option.none

/-- The `aiAnalyzer` field the constructor initialises. -/
def workflowAIAnalyzer (cfg : WorkflowConfig) : Option AIConfig :=
  if shouldUseAI cfg then createAIAnalyzer cfg else Option.none

/-- `ReleaseWorkflow.validateConfiguration`, run by the constructor: a
present GitHub token, and an analyzer when the strategy needs one.  It
performs no check of the confidence threshold. -/
def validateConfiguration (cfg : WorkflowConfig) : Except WorkflowError Unit :=
  if cfg.githubToken = "" then
    .error { message := "GitHub token is required", code := "CONFIG_ERROR" }
  else if shouldUseAI cfg && (workflowAIAnalyzer cfg).isNone then
    .error { message := "AI strategy requires valid API key for " ++ providerString cfg.aiProvider
             code := "CONFIG_ERROR" }
  else
    .ok ()

/-- The `ReleaseWorkflow` constructor: module wiring plus
`validateConfiguration`. -/
def mkReleaseWorkflow (cfg : WorkflowConfig) : Except WorkflowError Unit :=
  validateConfiguration cfg

/-- Whether a bump is `major`. -/
def isMajor (b : VersionBump) : Bool :=
  match b with
  | .major => true
  | _ => false

/-- `ReleaseWorkflow.createBasicChangelogEntries`. -/
def createBasicChangelogEntries (commits : List CommitInfo) : List ChangelogEntry :=
  commits.map fun commit =>
    let parsed := parseConventionalCommit commit.message
    { category := parsed.type
      description := parsed.description
      isBreaking := parsed.isBreaking
      author := commit.author.name
      commitSha := commit.sha
      confidence := 1
      scope := parsed.scope
      pullRequest := commit.pullRequest }

/-- `ReleaseWorkflow.analyzeChanges` (step 1): git failures are wrapped as
`GIT_ANALYSIS_ERROR`. -/
def analyzeChanges (w : WorkflowWorld) : Except WorkflowError GitAnalysisData :=
  match w.repoDiff with
  | .error msg =>
    .error { message := "Failed to analyze repository changes: " ++ msg
             code := "GIT_ANALYSIS_ERROR" }
  | .ok diff => .ok { diff := diff, commitCount := diff.commits.length }

/-- `ReleaseWorkflow.analyzeVersion` (step 2).  As in the source, the
configured `packageJsonPath` string itself is handed to `parseVersion`. -/
def analyzeVersion (cfg : WorkflowConfig) (gitData : GitAnalysisData) :
    Except WorkflowError VersionAnalysisData :=
  match parseVersion cfg.packageJsonPath with
  | .error msg =>
    .error { message := "Failed to analyze version: " ++ msg, code := "VERSION_ANALYSIS_ERROR" }
  | .ok currentVersion =>
    let versionBump := determineVersionBump gitData.diff
    .ok { currentVersion := currentVersion
          newVersion := incrementVersion currentVersion versionBump
          versionBump := versionBump }

/-- `ReleaseWorkflow.analyzeWithAI` (step 3): the strategy arbiter.  The AI
call's outcome is `aiOutcome`; the conventional path never consults it. -/
def analyzeWithAI (cfg : WorkflowConfig) (analyzer : Option AIConfig)
    (gitData : GitAnalysisData) (versionData : VersionAnalysisData)
    (aiOutcome : Except AIErr AIAnalysis) : Except WorkflowError ChangeAnalysisData :=
  let useAI := shouldUseAI cfg
  if !useAI || analyzer.isNone then
    .ok { entries := createBasicChangelogEntries gitData.diff.commits
          aiConfidence := Option.none
          reasoning := ["Using conventional commits analysis"]
          breakingChanges := isMajor versionData.versionBump }
  else
    match aiOutcome with
    | .ok analysis =>
      let aiConfidenceOk := cfg.aiConfidenceThreshold ≤ analysis.confidence
      if cfg.versioningStrategy = Strategy.hybrid ∧ ¬aiConfidenceOk then
        .ok { entries := createBasicChangelogEntries gitData.diff.commits
              aiConfidence := some analysis.confidence
              reasoning := analysis.reasoning ++
                ["Confidence below threshold, using conventional analysis"]
              breakingChanges := isMajor versionData.versionBump }
      else
        .ok { entries := analysis.changes
              aiConfidence := some analysis.confidence
              reasoning := analysis.reasoning
              breakingChanges := analysis.changes.any (fun change => change.isBreaking) }
    | .error e =>
      if cfg.versioningStrategy = Strategy.hybrid then
        .ok { entries := createBasicChangelogEntries gitData.diff.commits
              aiConfidence := some 0
              reasoning := ["AI analysis failed, using conventional fallback"]
              breakingChanges := isMajor versionData.versionBump }
      else
        .error { message := "AI analysis failed: " ++ e.message, code := "AI_ANALYSIS_ERROR" }

/-- `ReleaseWorkflow.updateChangelog` (step 4). -/
def updateChangelog (cfg : WorkflowConfig) (w : WorkflowWorld) :
    Except WorkflowError (Option ChangelogData) :=
  if cfg.skipChangelog then .ok Option.none
  else
    match w.changelogResult with
    | .error msg =>
      .error { message := "Failed to update changelog: " ++ msg, code := "CHANGELOG_ERROR" }
    | .ok cd => .ok (some cd)

/-- `ReleaseWorkflow.createReleaseBranch` (step 5): git branch and commit
work of the out-of-scope git host, wrapped as `RELEASE_BRANCH_ERROR`. -/
def createReleaseBranchStep (w : WorkflowWorld) : Except WorkflowError ReleaseData :=
  match w.releaseBranchResult with
  | .error msg =>
    .error { message := "Failed to create release branch: " ++ msg
             code := "RELEASE_BRANCH_ERROR" }
  | .ok rd => .ok rd

/-- The body of `ReleaseWorkflow.execute`'s try block: the five steps in
sequence, each `throw` propagating to the catch clause. -/
def executeInner (cfg : WorkflowConfig) (w : WorkflowWorld) :
    Except WorkflowError ReleaseResult :=
  match analyzeChanges w with
  | .error e => .error e
  | .ok gitData =>
    match analyzeVersion cfg gitData with
    | .error e => .error e
    | .ok versionData =>
      match analyzeWithAI cfg (workflowAIAnalyzer cfg) gitData versionData w.aiOutcome with
      | .error e => .error e
      | .ok changeData =>
        match updateChangelog cfg w with
        | .error e => .error e
        | .ok changelogData =>
          match createReleaseBranchStep w with
          | .error e => .error e
          | .ok releaseData =>
            .ok { version := formatVersion versionData.newVersion
                  releaseBranch := releaseData.releaseBranch
                  versionBump := versionData.versionBump
                  changelogEntry := (changelogData.map (fun cd => cd.markdown)).getD ""
                  analysisStrategy := strategyString cfg.versioningStrategy
                  aiConfidence := changeData.aiConfidence
                  reasoning := changeData.reasoning
                  commitCount := gitData.commitCount
                  breakingChanges := changeData.breakingChanges
                  changelogData := changelogData }

/-- `ReleaseWorkflow.execute`: the catch clause converts any step failure
into the sentinel result instead of rejecting. -/
def execute (cfg : WorkflowConfig) (w : WorkflowWorld) : ReleaseResult :=
  match executeInner cfg w with
  | .ok r => r
  | .error e =>
    { version := "0.0.0"
      releaseBranch := ""
      versionBump := .patch
      changelogEntry := ""
      analysisStrategy := strategyString cfg.versioningStrategy
      aiConfidence := Option.none
      reasoning := [e.message]
      commitCount := 0
      breakingChanges := false
      changelogData := Option.none }

/-! ## The action entry point (src/main.ts) -/

/-- The parsed action inputs `getActionInputs` returns; the raw strategy,
provider and changelog-format strings are kept as strings, as the source's
unchecked casts do. -/
structure ActionInputs where
  mainBranch : String
  featureBranch : String
  githubToken : String
  packageJsonPath : String
  changelogPath : String
  versioningStrategy : String
  aiProvider : String
  openaiApiKey : String
  anthropicApiKey : String
  aiModel : String
  aiConfidenceThreshold : ℚ
  conventionalTypes : List String
  changelogFormat : String
  changelogTemplate : String
  preRelease : Bool
  preReleaseIdentifier : String
  skipChangelog : Bool
  skipGitTag : Bool
  maxCommitsAnalysis : Int
  enableCaching : Bool
  debugMode : Bool
deriving DecidableEq, Repr

/-- `validateInputs` from src/main.ts, with the source's check order. -/
def validateInputs (i : ActionInputs) : Except String Unit :=
  if i.featureBranch = "" then
    .error "feature-branch input is required"
  else if ¬(i.versioningStrategy = "conventional" ∨ i.versioningStrategy = "ai" ∨
      i.versioningStrategy = "hybrid") then
    .error "versioning-strategy must be one of: conventional, ai, hybrid"
  else if ¬(i.aiProvider = "openai" ∨ i.aiProvider = "anthropic") then
    .error "ai-provider must be one of: openai, anthropic"
  else if (i.versioningStrategy = "ai" ∨ i.versioningStrategy = "hybrid") ∧
      i.aiProvider = "openai" ∧ i.openaiApiKey = "" then
    .error "openai-api-key is required when using OpenAI provider"
  else if (i.versioningStrategy = "ai" ∨ i.versioningStrategy = "hybrid") ∧
      i.aiProvider = "anthropic" ∧ i.anthropicApiKey = "" then
    .error "anthropic-api-key is required when using Anthropic provider"
  else if i.aiConfidenceThreshold < 0 ∨ 1 < i.aiConfidenceThreshold then
    .error "ai-confidence-threshold must be between 0.0 and 1.0"
  else if ¬(i.changelogFormat = "keepachangelog" ∨ i.changelogFormat = "custom") then
    .error "changelog-format must be one of: keepachangelog, custom"
  else if i.changelogFormat = "custom" ∧ i.changelogTemplate = "" then
    .error "changelog-template is required when using custom format"
  else
    .ok ()

/-- The strategy cast of `getActionInputs`, meaningful after validation. -/
def toStrategy (s : String) : Strategy :=
  if s = "ai" then .ai
  else if s = "hybrid" then .hybrid
  else .conventional

/-- The provider cast of `getActionInputs`, meaningful after validation. -/
def toProvider (s : String) : Provider :=
  if s = "anthropic" then .anthropic
  else .openai

/-- The `WorkflowConfig` record `run` builds from the inputs. -/
def toWorkflowConfig (i : ActionInputs) : WorkflowConfig :=
  { mainBranch := i.mainBranch
    featureBranch := i.featureBranch
    githubToken := i.githubToken
    packageJsonPath := i.packageJsonPath
    changelogPath := i.changelogPath
    versioningStrategy := toStrategy i.versioningStrategy
    aiProvider := toProvider i.aiProvider
    openaiApiKey := some i.openaiApiKey
    anthropicApiKey := some i.anthropicApiKey
    aiModel := i.aiModel
    aiConfidenceThreshold := i.aiConfidenceThreshold
    conventionalTypes := i.conventionalTypes
    preRelease := i.preRelease
    preReleaseIdentifier := i.preReleaseIdentifier
    skipChangelog := i.skipChangelog
    skipGitTag := i.skipGitTag
    maxCommitsAnalysis := i.maxCommitsAnalysis
    debugMode := i.debugMode }

/-- `run` from src/main.ts: validate inputs, construct the workflow
(whose constructor may throw a configuration error), then execute; a throw
anywhere surfaces as the single failure message `core.setFailed` reports. -/
def mainRun (i : ActionInputs) (w : WorkflowWorld) : Except String ReleaseResult :=
  match validateInputs i with
  | .error e => .error e
  | .ok _ =>
    let cfg := toWorkflowConfig i
    match mkReleaseWorkflow cfg with
    | .error e => .error e.message
    | .ok _ => .ok (execute cfg w)

/-! ## GitOperations (the git-operations source file)

Branch resolution and commit-log parsing run `git` subprocesses; the
repository's refs are modelled as a `GitState` (which branches resolve
locally, as `origin/<name>` remote-tracking refs, and which a fetch can
materialise), and each subprocess invocation is recorded as a `GitCmd` so
that short-circuiting is observable. -/

/-- A git subprocess invocation made during branch resolution. -/
inductive GitCmd where
  | revParseLocal (branch : String)
  | revParseRemote (branch : String)
  | fetchBranch (branch : String)
deriving DecidableEq, Repr

/-- The repository's refs as branch resolution sees them. -/
structure GitState where
  localBranches : List String
  remoteBranches : List String
  fetchable : List String
deriving DecidableEq, Repr

/-- One branch of `GitOperations.validateBranches`: `rev-parse --verify
<b>`, then `rev-parse --verify origin/<b>`, then `fetch origin <b>:<b>`
(which creates the local branch), else a `GitOperationError` naming the
branch.  Returns the updated refs and the commands attempted. -/
def validateBranch (st : GitState) (b : String) : Except String (GitState × List GitCmd) :=
  if st.localBranches.contains b then
    .ok (st, [.revParseLocal b])
  else if st.remoteBranches.contains b then
    .ok (st, [.revParseLocal b, .revParseRemote b])
  else if st.fetchable.contains b then
    .ok ({ st with localBranches := b :: st.localBranches },
         [.revParseLocal b, .revParseRemote b, .fetchBranch b])
  else
    .error ("Branch '" ++ b ++ "' does not exist locally or on remote")

/-- `GitOperations.validateBranches` over a branch list. -/
def validateBranches (st : GitState) : List String → Except String (GitState × List GitCmd)
  | [] => .ok (st, [])
  | b :: rest =>
    match validateBranch st b with
    | .error e => .error e
    | .ok (st1, cmds) =>
      match validateBranches st1 rest with
      | .error e => .error e
      | .ok (st2, more) => .ok (st2, cmds ++ more)

/-- `GitOperations.resolveBranchRef`: local name, else `origin/<name>`,
else the original name (letting a later git call fail). -/
def resolveBranchRef (st : GitState) (b : String) : String × List GitCmd :=
  if st.localBranches.contains b then
    (b, [.revParseLocal b])
  else if st.remoteBranches.contains b then
    ("origin/" ++ b, [.revParseLocal b, .revParseRemote b])
  else
    (b, [.revParseLocal b, .revParseRemote b])

/-- `parseInt(s, 10)` restricted to the non-negative case: value of the
leading digit run (`0` approximates the `NaN` of a digitless string, which
the date fields of a well-formed `git log` line never produce). -/
def jsParseIntNat (s : String) : Nat :=
  parseNatDigits (s.toList.takeWhile Char.isDigit)

/-- The `line.split('|')` fields of one
`git log --pretty=format:"%H|%s|%an|%ae|%at|%cn|%ce|%ct"` line. -/
def logLineFields (line : String) : List String :=
  (splitOnChar '|' line.toList).map String.mk

/-- The per-line body of `GitOperations.getCommitsBetweenBranches` over the
split fields: keep the commit only when the sha and subject fields are
present and non-empty, default the identity fields, and fetch per-commit
files and parents through further git calls (modelled by `filesOf` and
`parentsOf`). -/
def parseFieldsCommit (filesOf : String → List GitFileChange)
    (parentsOf : String → List String) (fs : List String) : Option CommitInfo :=
  match fs[0]?, fs[1]? with
  | some sha, some message =>
    if sha = "" ∨ message = "" then Option.none
    else
      some { sha := sha
             message := message
             author := { name := (fs[2]?).getD "Unknown"
                         email := (fs[3]?).getD "unknown@unknown.com"
                         date := (jsParseIntNat ((fs[4]?).getD "0") * 1000 : Nat) }
             committer := { name := (fs[5]?).getD "Unknown"
                            email := (fs[6]?).getD "unknown@unknown.com"
                            date := (jsParseIntNat ((fs[7]?).getD "0") * 1000 : Nat) }
             files := filesOf sha
             parents := parentsOf sha }
  | _, _ => Option.none

/-- One log line parsed as `getCommitsBetweenBranches` does. -/
def parseLogLine (filesOf : String → List GitFileChange)
    (parentsOf : String → List String) (line : String) : Option CommitInfo :=
  parseFieldsCommit filesOf parentsOf (logLineFields line)

/-- Whether split fields survive the sha/subject guard of
`getCommitsBetweenBranches`. -/
def goodFields (fs : List String) : Bool :=
  match fs[0]?, fs[1]? with
  | some sha, some message => !(sha == "") && !(message == "")
  | _, _ => false

/-- Whether a log line survives the sha/subject guard of
`getCommitsBetweenBranches`. -/
def goodLogLine (line : String) : Bool :=
  goodFields (logLineFields line)

/-- The accumulation loop of `getCommitsBetweenBranches` over the split
log lines. -/
def getCommitsFromLines (filesOf : String → List GitFileChange)
    (parentsOf : String → List String) (lines : List String) : List CommitInfo :=
  lines.filterMap (parseLogLine filesOf parentsOf)

/-- The line split of `getCommitsBetweenBranches`: empty trimmed output is
the empty commit list, otherwise the trimmed output split on newlines. -/
def logLines (logOutput : String) : List String :=
  if jsTrim logOutput = "" then []
  else (splitOnChar '\n' (jsTrim logOutput).toList).map String.mk

/-- `GitOperations.getCommitsBetweenBranches`, over the text the
`git log` subprocess printed for `base..feature`. -/
def getCommitsBetweenBranches (filesOf : String → List GitFileChange)
    (parentsOf : String → List String) (logOutput : String) : List CommitInfo :=
  getCommitsFromLines filesOf parentsOf (logLines logOutput)

/-! ## Concrete inputs used by counterexamples and witnesses -/

/-- A commit whose message merely mentions the word `breaking`. -/
def commitC4 : CommitInfo :=
  { sha := "c4sha"
    message := "docs: update breaking news"
    author := { name := "Ann", email := "ann@example.com", date := 0 }
    committer := { name := "Ann", email := "ann@example.com", date := 0 }
    files := []
    parents := [] }

/-- A diff containing only `commitC4`. -/
def diffC4 : GitDiff :=
  { commits := [commitC4]
    fileChanges := []
    totalAdditions := 0
    totalDeletions := 0
    dateFrom := 0
    dateTo := 0
    contributors := ["ann@example.com"] }

/-- A plain feature commit. -/
def commitFeat : CommitInfo :=
  { sha := "featsha"
    message := "feat: add login"
    author := { name := "Bo", email := "bo@example.com", date := 0 }
    committer := { name := "Bo", email := "bo@example.com", date := 0 }
    files := []
    parents := [] }

/-- A diff containing only `commitFeat`. -/
def diffFeat : GitDiff :=
  { commits := [commitFeat]
    fileChanges := []
    totalAdditions := 0
    totalDeletions := 0
    dateFrom := 0
    dateTo := 0
    contributors := ["bo@example.com"] }

/-- A hybrid-strategy configuration with a valid OpenAI key.  Its
`packageJsonPath` is the string `1.2.3` so that the source's step 2 — which
hands the configured path itself to `parseVersion` — succeeds. -/
def cfgHybrid : WorkflowConfig :=
  { mainBranch := "main"
    featureBranch := "feature/login"
    githubToken := "token"
    packageJsonPath := "1.2.3"
    changelogPath := "CHANGELOG.md"
    versioningStrategy := .hybrid
    aiProvider := .openai
    openaiApiKey := some "sk-test"
    anthropicApiKey := Option.none
    aiModel := "gpt-4o-mini"
    aiConfidenceThreshold := 7/10
    conventionalTypes := []
    preRelease := false
    preReleaseIdentifier := "alpha"
    skipChangelog := false
    skipGitTag := false
    maxCommitsAnalysis := 50
    debugMode := false }

/-- A world in which git and the changelog store succeed but the AI call
fails. -/
def worldAIFails : WorkflowWorld :=
  { repoDiff := .ok diffFeat
    aiOutcome := .error { message := "OpenAI API error (500): boom", retryable := true }
    changelogResult := .ok { markdown := "### Added" }
    releaseBranchResult := .ok { releaseBranch := "release/1.3.0", tagName := "v1.3.0"
                                 commitSha := "deadbeef" } }

/-- A world in which every collaborator succeeds and the AI result is
confident. -/
def worldAIOk : WorkflowWorld :=
  { repoDiff := .ok diffFeat
    aiOutcome := .ok { versionBump := .minor, confidence := 9/10
                       reasoning := ["looks minor"], changes := [] }
    changelogResult := .ok { markdown := "### Added" }
    releaseBranchResult := .ok { releaseBranch := "release/1.3.0", tagName := "v1.3.0"
                                 commitSha := "deadbeef" } }

/-- A world whose git work fails. -/
def worldGitFails : WorkflowWorld :=
  { repoDiff := .error "Git command failed: rev-parse --git-dir"
    aiOutcome := .error { message := "unused" }
    changelogResult := .ok { markdown := "" }
    releaseBranchResult := .ok { releaseBranch := "", tagName := "", commitSha := "" } }

/-- A configuration whose confidence threshold is out of range but which
`validateConfiguration` accepts (conventional strategy, present token). -/
def cfgBadThreshold : WorkflowConfig :=
  { cfgHybrid with versioningStrategy := .conventional, aiConfidenceThreshold := 3/2 }

/-- Action inputs that are well-formed except for an out-of-range
confidence threshold. -/
def inputsBadThreshold : ActionInputs :=
  { mainBranch := "main"
    featureBranch := "feature/login"
    githubToken := "token"
    packageJsonPath := "package.json"
    changelogPath := "CHANGELOG.md"
    versioningStrategy := "hybrid"
    aiProvider := "openai"
    openaiApiKey := "sk-test"
    anthropicApiKey := ""
    aiModel := "gpt-4o-mini"
    aiConfidenceThreshold := 2
    conventionalTypes := ["feat", "fix"]
    changelogFormat := "keepachangelog"
    changelogTemplate := ""
    preRelease := false
    preReleaseIdentifier := "alpha"
    skipChangelog := false
    skipGitTag := false
    maxCommitsAnalysis := 50
    enableCaching := false
    debugMode := false }

/-- An AI analysis whose confidence equals `cfgHybrid`'s threshold. -/
def analysisAtThreshold : AIAnalysis :=
  { versionBump := .minor
    confidence := 7/10
    reasoning := ["matched feature work"]
    changes := [{ category := "feat", description := "add login", commitSha := "featsha"
                  author := "Bo", isBreaking := false, confidence := 9/10 }] }

/-- A retry configuration with the source's defaults (3 attempts, base
1000 ms, cap 8000 ms). -/
def rcDefault : RetryConfig :=
  { maxRetries := 3, baseDelay := 1000, maxDelay := 8000 }

/-- A refs state for the branch-resolution witness: `main` is local,
`feature` only remote, `topic` only fetchable. -/
def gitStateW : GitState :=
  { localBranches := ["main"]
    remoteBranches := ["feature"]
    fetchable := ["topic"] }

/-- `cfgHybrid` with the `ai` strategy. -/
def cfgAIStrategy : WorkflowConfig :=
  { cfgHybrid with versioningStrategy := .ai }

/-- The analyzer configuration `cfgHybrid` induces. -/
def aiCfgHybrid : AIConfig :=
  { apiKey := "sk-test", model := "gpt-4o-mini", confidenceThreshold := 7/10 }

/-- Git analysis data for `diffFeat`. -/
def gitDataFeat : GitAnalysisData :=
  { diff := diffFeat, commitCount := 1 }

/-- Version analysis data for a minor bump from 1.2.3. -/
def versionDataFeat : VersionAnalysisData :=
  { currentVersion := { major := 1, minor := 2, patch := 3 }
    newVersion := { major := 1, minor := 3, patch := 0 }
    versionBump := .minor }

/-- A call whose response parses to a JSON object without the required
fields. -/
def callInvalid : Nat → Except AIErr (Option JValue) :=
  fun _ => .ok (some (JValue.jobj []))

/-- A call that fails retryably twice and then succeeds. -/
def callFlaky : Nat → Except AIErr Nat :=
  fun n => if n ≤ 2 then .error { message := "503", retryable := true } else .ok 42

/-! # Theorems -/

/-! ## Helper lemmas -/

theorem isPrefixOf_append_self : ∀ (l t : List Char), l.isPrefixOf (l ++ t) = true := by
  intro l t
  induction l with
  | nil => simp [List.isPrefixOf]
  | cons c cs ih => simp [List.isPrefixOf, ih]

theorem listInfix_append_self :
    ∀ (pre sub suf : List Char), listInfix sub (pre ++ sub ++ suf) = true := by
  intro pre
  induction pre with
  | nil =>
    intro sub suf
    cases sub with
    | nil =>
      cases suf with
      | nil => rfl
      | cons c t => simp [listInfix, List.isPrefixOf]
    | cons c t =>
      simp only [List.nil_append, List.cons_append]
      rw [listInfix]
      have h := isPrefixOf_append_self (c :: t) suf
      simp only [List.cons_append] at h
      rw [h, Bool.true_or]
  | cons p ps ih =>
    intro sub suf
    simp only [List.cons_append]
    rw [listInfix]
    have h := ih sub suf
    simp only [List.append_assoc] at h ⊢
    rw [h, Bool.or_true]

theorem strIncludes_append_self (p s q : String) :
    strIncludes (p ++ s ++ q) s = true := by
  rw [strIncludes]
  show listInfix s.data (p ++ s ++ q).data = true
  rw [String.data_append, String.data_append]
  exact listInfix_append_self p.data s.data q.data

theorem any_true_ne_nil {α : Type} {l : List α} {p : α → Bool}
    (h : l.any p = true) : l ≠ [] := by
  rcases List.any_eq_true.mp h with ⟨x, hx, _⟩
  exact List.ne_nil_of_mem hx

/-- C4 (corrected, amended form): `determineVersionBump` returns `major`
exactly when some commit message contains `BREAKING CHANGE:`, contains
`!:`, or contains `breaking` case-insensitively; `minor` exactly when no
commit matches that breaking predicate and some commit starts with `feat:`
or `feature:` or contains `feature` case-insensitively; `patch` exactly
when neither predicate matches any commit and the commit list is
non-empty; and `none` exactly when the commit list is empty. -/
theorem C4_amended (d : GitDiff) :
    (determineVersionBump d = VersionBump.major ↔
      ∃ c ∈ d.commits, breakingMessage c.message = true) ∧
    (determineVersionBump d = VersionBump.minor ↔
      ((∀ c ∈ d.commits, breakingMessage c.message = false) ∧
        ∃ c ∈ d.commits, featureMessage c.message = true)) ∧
    (determineVersionBump d = VersionBump.patch ↔
      ((∀ c ∈ d.commits, breakingMessage c.message = false ∧
          featureMessage c.message = false) ∧ d.commits ≠ [])) ∧
    (determineVersionBump d = VersionBump.none ↔ d.commits = []) := by
  have e1 : detectBreakingChanges d = true ↔
      ∃ c ∈ d.commits, breakingMessage c.message = true := by
    simp [detectBreakingChanges]
  have e1f : detectBreakingChanges d = false ↔
      ∀ c ∈ d.commits, breakingMessage c.message = false := by
    simp [detectBreakingChanges]
  have e2 : detectNewFeatures d = true ↔
      ∃ c ∈ d.commits, featureMessage c.message = true := by
    simp [detectNewFeatures]
  have e2f : detectNewFeatures d = false ↔
      ∀ c ∈ d.commits, featureMessage c.message = false := by
    simp [detectNewFeatures]
  have e3 : detectBugFixes d = true → d.commits ≠ [] := fun h => any_true_ne_nil h
  rw [← e1, ← e1f, ← e2]
  have forall_pair : (∀ c ∈ d.commits, breakingMessage c.message = false ∧
      featureMessage c.message = false) ↔
      (detectBreakingChanges d = false ∧ detectNewFeatures d = false) := by
    rw [e1f, e2f]
    constructor
    · exact fun h => ⟨fun c hc => (h c hc).1, fun c hc => (h c hc).2⟩
    · exact fun h c hc => ⟨h.1 c hc, h.2 c hc⟩
  rw [forall_pair]
  cases hB : detectBreakingChanges d <;> cases hF : detectNewFeatures d <;>
    cases hX : detectBugFixes d <;>
    cases hc : d.commits
  all_goals (
    first
    | (simp [determineVersionBump, hB, hF, hX, hc]; done)
    | (exfalso
       first
       | (rw [detectBreakingChanges, hc] at hB; simp at hB; done)
       | (rw [detectNewFeatures, hc] at hF; simp at hF; done)
       | (rw [detectBugFixes, hc] at hX; simp at hX; done)))


/-- C4 (counterexample): a diff whose only commit merely mentions the word
`breaking` yields a `major` bump although no commit is breaking-flagged
in the claim's sense. -/
theorem C4_counterexample :
    determineVersionBump diffC4 = VersionBump.major ∧
    (∀ c ∈ diffC4.commits, claimBreakingFlagged c.message = false) := by
  decide

/-- C7 (confirmed): branch resolution tries the local ref first and a local
hit issues no remote lookup or fetch; a local miss with a remote hit uses
`origin/<name>` without fetching; a fetch happens only after local and
remote both miss; and when all three steps miss, validation fails with an
error message containing the branch name. -/
theorem C7_branch_resolution (st : GitState) (b : String) :
    (b ∈ st.localBranches →
      validateBranch st b = .ok (st, [.revParseLocal b]) ∧
      resolveBranchRef st b = (b, [.revParseLocal b])) ∧
    (b ∉ st.localBranches → b ∈ st.remoteBranches →
      validateBranch st b = .ok (st, [.revParseLocal b, .revParseRemote b]) ∧
      resolveBranchRef st b = ("origin/" ++ b, [.revParseLocal b, .revParseRemote b])) ∧
    (∀ st2 cmds, validateBranch st b = .ok (st2, cmds) → GitCmd.fetchBranch b ∈ cmds →
      b ∉ st.localBranches ∧ b ∉ st.remoteBranches) ∧
    (b ∉ st.localBranches → b ∉ st.remoteBranches → b ∉ st.fetchable →
      ∃ msg, validateBranch st b = .error msg ∧ strIncludes msg b = true) := by
  refine ⟨?_, ?_, ?_, ?_⟩
  · intro h
    constructor <;> simp [validateBranch, resolveBranchRef, h]
  · intro h1 h2
    constructor <;> simp [validateBranch, resolveBranchRef, h1, h2]
  · intro st2 cmds hok hmem
    by_cases h1 : b ∈ st.localBranches
    · simp [validateBranch, h1] at hok
      rw [← hok.2] at hmem
      simp at hmem
    · by_cases h2 : b ∈ st.remoteBranches
      · simp [validateBranch, h1, h2] at hok
        rw [← hok.2] at hmem
        simp at hmem
      · exact ⟨h1, h2⟩
  · intro h1 h2 h3
    refine ⟨"Branch '" ++ b ++ "' does not exist locally or on remote",
      by simp [validateBranch, h1, h2, h3], ?_⟩
    exact strIncludes_append_self "Branch '" b "' does not exist locally or on remote"

/-- C9 (confirmed): whatever step of the workflow fails, `execute` returns
the sentinel result — version `0.0.0`, a `patch` bump, empty release branch
and changelog entry, zero commit count, no breaking flag, absent AI
confidence, and the failure message as the sole reasoning string — instead
of rejecting. -/
theorem C9_execute_sentinel (cfg : WorkflowConfig) (w : WorkflowWorld) (e : WorkflowError)
    (h : executeInner cfg w = .error e) :
    execute cfg w =
      { version := "0.0.0", releaseBranch := "", versionBump := .patch,
        changelogEntry := "", analysisStrategy := strategyString cfg.versioningStrategy,
        aiConfidence := Option.none, reasoning := [e.message], commitCount := 0,
        breakingChanges := false, changelogData := Option.none } := by
  unfold execute
  rw [h]

/-- Witness for C9: under the `ai` strategy a failing AI call makes the run
return the sentinel with the wrapped AI failure message. -/
theorem C9_witness :
    execute cfgAIStrategy worldAIFails =
      { version := "0.0.0", releaseBranch := "", versionBump := .patch,
        changelogEntry := "", analysisStrategy := "ai",
        aiConfidence := Option.none,
        reasoning := ["AI analysis failed: OpenAI API error (500): boom"], commitCount := 0,
        breakingChanges := false, changelogData := Option.none } :=
  C9_execute_sentinel cfgAIStrategy worldAIFails
    { message := "AI analysis failed: OpenAI API error (500): boom", code := "AI_ANALYSIS_ERROR" }
    rfl

/-- C1 (corrected, amended form): the result of `execute` is always tagged
with the configured strategy, even when hybrid fallback used conventional
analysis for the decision. -/
theorem C1_amended (cfg : WorkflowConfig) (w : WorkflowWorld) :
    (execute cfg w).analysisStrategy = strategyString cfg.versioningStrategy := by
  unfold execute
  cases hx : executeInner cfg w with
  | error e => rfl
  | ok r =>
    cases h1 : analyzeChanges w with
    | error e => simp [executeInner, h1] at hx
    | ok gd =>
      cases h2 : analyzeVersion cfg gd with
      | error e => simp [executeInner, h1, h2] at hx
      | ok vd =>
        cases h3 : analyzeWithAI cfg (workflowAIAnalyzer cfg) gd vd w.aiOutcome with
        | error e => simp [executeInner, h1, h2, h3] at hx
        | ok cd =>
          cases h4 : updateChangelog cfg w with
          | error e => simp [executeInner, h1, h2, h3, h4] at hx
          | ok cld =>
            cases h5 : createReleaseBranchStep w with
            | error e => simp [executeInner, h1, h2, h3, h4, h5] at hx
            | ok rd =>
              simp [executeInner, h1, h2, h3, h4, h5] at hx
              rw [← hx]

/-- C1 (counterexample): a hybrid run whose AI call failed fell back to
conventional analysis (visible in the fallback reasoning and the zero AI
confidence), yet the result is tagged `hybrid`, not `conventional`. -/
theorem C1_counterexample :
    (execute cfgHybrid worldAIFails).analysisStrategy = "hybrid" ∧
    (execute cfgHybrid worldAIFails).reasoning =
      ["AI analysis failed, using conventional fallback"] ∧
    (execute cfgHybrid worldAIFails).aiConfidence = some 0 ∧
    "hybrid" ≠ "conventional" := by
  refine ⟨by decide, by decide, by decide, by decide⟩


/-- C5 (confirmed): under the hybrid strategy with a successful AI
analysis, a confidence at or above the threshold (equality included)
accepts the AI result outright, while a confidence strictly below the
threshold falls back to conventional entries, keeps the AI's own reasoning
strings, and appends the note `Confidence below threshold, using
conventional analysis`. -/
theorem C5_hybrid_threshold (cfg : WorkflowConfig) (ac : AIConfig)
    (gitData : GitAnalysisData) (versionData : VersionAnalysisData) (analysis : AIAnalysis)
    (hstrat : cfg.versioningStrategy = Strategy.hybrid)
    (hana : workflowAIAnalyzer cfg = some ac) :
    (cfg.aiConfidenceThreshold ≤ analysis.confidence →
      analyzeWithAI cfg (workflowAIAnalyzer cfg) gitData versionData (.ok analysis) =
        .ok { entries := analysis.changes
              aiConfidence := some analysis.confidence
              reasoning := analysis.reasoning
              breakingChanges := analysis.changes.any (fun c => c.isBreaking) }) ∧
    (analysis.confidence < cfg.aiConfidenceThreshold →
      analyzeWithAI cfg (workflowAIAnalyzer cfg) gitData versionData (.ok analysis) =
        .ok { entries := createBasicChangelogEntries gitData.diff.commits
              aiConfidence := some analysis.confidence
              reasoning := analysis.reasoning ++
                ["Confidence below threshold, using conventional analysis"]
              breakingChanges := isMajor versionData.versionBump }) := by
  have huse : shouldUseAI cfg = true := by simp [shouldUseAI, hstrat]
  constructor
  · intro hge
    simp [analyzeWithAI, huse, hana, hstrat, hge]
  · intro hlt
    have hnot : ¬ cfg.aiConfidenceThreshold ≤ analysis.confidence := not_le.mpr hlt
    simp [analyzeWithAI, huse, hana, hstrat, hnot]

/-- Witness for C5: with the threshold 0.7 and an AI confidence of exactly
0.7, the AI result is accepted outright. -/
theorem C5_witness :
    analyzeWithAI cfgHybrid (workflowAIAnalyzer cfgHybrid) gitDataFeat versionDataFeat
        (.ok analysisAtThreshold) =
      .ok { entries := analysisAtThreshold.changes
            aiConfidence := some (7/10)
            reasoning := ["matched feature work"]
            breakingChanges := false } := by
  have h := (C5_hybrid_threshold cfgHybrid aiCfgHybrid gitDataFeat versionDataFeat
    analysisAtThreshold rfl rfl).1 (by norm_num [cfgHybrid, analysisAtThreshold])
  rw [h]
  rfl

/-- C3 (counterexample): `ReleaseWorkflow` construction accepts a
configuration whose confidence threshold is 3/2, outside `[0,1]` — the
constructor's `validateConfiguration` never checks the threshold. -/
theorem C3_counterexample :
    validateConfiguration cfgBadThreshold = .ok () ∧
    mkReleaseWorkflow cfgBadThreshold = .ok () ∧
    (1 : ℚ) < cfgBadThreshold.aiConfidenceThreshold := by
  refine ⟨rfl, rfl, by norm_num [cfgBadThreshold, cfgHybrid]⟩

/-- C3 (corrected, amended form): an out-of-range threshold is rejected by
the action entry point's `validateInputs`, before the workflow is even
constructed, so the run fails with a configuration error and its outcome
is independent of every external collaborator (no git or network work
contributes to it). -/
theorem C3_amended (i : ActionInputs) (w w2 : WorkflowWorld)
    (h : i.aiConfidenceThreshold < 0 ∨ 1 < i.aiConfidenceThreshold) :
    (∃ e, mainRun i w = .error e) ∧ mainRun i w = mainRun i w2 := by
  have hv : ∃ e, validateInputs i = .error e := by
    unfold validateInputs
    split_ifs <;> first | exact ⟨_, rfl⟩ | tauto
  rcases hv with ⟨e, he⟩
  constructor
  · exact ⟨e, by unfold mainRun; rw [he]⟩
  · unfold mainRun
    rw [he]

/-- Witness for C3: inputs with threshold 2 make the run fail identically
under two entirely different external worlds. -/
theorem C3_witness :
    (∃ e, mainRun inputsBadThreshold worldAIOk = .error e) ∧
    mainRun inputsBadThreshold worldAIOk = mainRun inputsBadThreshold worldGitFails :=
  C3_amended inputsBadThreshold worldAIOk worldGitFails (Or.inr (by norm_num [inputsBadThreshold]))


/-- Fields fail the guard exactly when `parseFieldsCommit` drops them. -/
theorem parseFieldsCommit_none_iff (filesOf : String → List GitFileChange)
    (parentsOf : String → List String) (fs : List String) :
    parseFieldsCommit filesOf parentsOf fs = Option.none ↔ goodFields fs = false := by
  unfold parseFieldsCommit goodFields
  cases h0 : fs[0]? with
  | none => simp
  | some sha =>
    cases h1 : fs[1]? with
    | none => simp
    | some message =>
      by_cases hs : sha = "" ∨ message = ""
      · rcases hs with hs | hs <;> simp [hs]
      · push_neg at hs
        simp [hs.1, hs.2]

/-- A produced commit keeps the non-empty sha and subject the guard
checked. -/
theorem parseFieldsCommit_some (filesOf : String → List GitFileChange)
    (parentsOf : String → List String) (fs : List String) (c : CommitInfo)
    (hp : parseFieldsCommit filesOf parentsOf fs = some c) :
    c.sha ≠ "" ∧ c.message ≠ "" := by
  unfold parseFieldsCommit at hp
  cases h0 : fs[0]? with
  | none => rw [h0] at hp; simp at hp
  | some sha =>
    cases h1 : fs[1]? with
    | none => rw [h0, h1] at hp; simp at hp
    | some message =>
      rw [h0, h1] at hp
      by_cases hs : sha = "" ∨ message = ""
      · simp [hs] at hp
      · push_neg at hs
        simp only [hs, if_false, or_self, Option.some.injEq] at hp
        · rw [← hp]
          exact ⟨hs.1, hs.2⟩

/-- C10 (confirmed): commits whose sha or subject field is empty are
silently omitted — parsing a log is the same as parsing only its good
lines, a bad line parses to nothing, and every commit produced carries a
non-empty sha and subject (so dropped lines contribute nothing to commit
counts, contributors, or bump inference, all of which are functions of the
commit list). -/
theorem C10_empty_fields_omitted (filesOf : String → List GitFileChange)
    (parentsOf : String → List String) (lines : List String) :
    getCommitsFromLines filesOf parentsOf lines =
      getCommitsFromLines filesOf parentsOf (lines.filter goodLogLine) ∧
    (∀ line ∈ lines, goodLogLine line = false →
      parseLogLine filesOf parentsOf line = Option.none) ∧
    (∀ c ∈ getCommitsFromLines filesOf parentsOf lines, c.sha ≠ "" ∧ c.message ≠ "") := by
  refine ⟨?_, ?_, ?_⟩
  · induction lines with
    | nil => rfl
    | cons l t ih =>
      by_cases hg : goodLogLine l
      · simp only [getCommitsFromLines, List.filterMap_cons, List.filter_cons, hg, if_true]
        cases hp : parseLogLine filesOf parentsOf l with
        | none => simpa [getCommitsFromLines, List.filterMap_cons, hp] using ih
        | some c =>
          simp only [getCommitsFromLines, List.filterMap_cons] at ih ⊢
          rw [ih]
      · have hp : parseLogLine filesOf parentsOf l = Option.none :=
          (parseFieldsCommit_none_iff filesOf parentsOf (logLineFields l)).mpr
            (by simpa [goodLogLine] using hg)
        simp only [getCommitsFromLines, List.filterMap_cons, List.filter_cons, hp] at ih ⊢
        simpa [hg] using ih
  · intro line _ hbad
    exact (parseFieldsCommit_none_iff filesOf parentsOf (logLineFields line)).mpr hbad
  · intro c hc
    rcases List.mem_filterMap.mp hc with ⟨line, _, hp⟩
    exact parseFieldsCommit_some filesOf parentsOf (logLineFields line) c hp


/-- Every failure of the change-mapping loop carries the constructor's
default `retryable = true`. -/
theorem mapAIChanges_error_retryable (cs : List JValue) :
    ∀ idx e, mapAIChanges idx cs = .error e → e.retryable = true := by
  induction cs with
  | nil => intro idx e h; simp [mapAIChanges] at h
  | cons c rest ih =>
    intro idx e h
    rw [mapAIChanges] at h
    split at h
    · simp only [Except.error.injEq] at h
      rw [← h]
    · split at h
      · rename_i e1 heq
        simp only [Except.error.injEq] at h
        rw [← h]
        exact ih (idx + 1) e1 heq
      · simp at h

/-- Every failure of `parseAIResponse` on a parseable body carries the
constructor's default `retryable = true`; only the unparseable-body
failure is non-retryable. -/
theorem parseAIResponse_some_error_retryable (j : JValue) (e : AIErr)
    (h : parseAIResponse (some j) = .error e) : e.retryable = true := by
  simp only [parseAIResponse] at h
  split at h
  · simp only [Except.error.injEq] at h
    rw [← h]
  · split at h
    · simp only [Except.error.injEq] at h
      rw [← h]
    · split at h
      · simp only [Except.error.injEq] at h
        rw [← h]
      · split at h
        · rename_i e1 heq
          simp only [Except.error.injEq] at h
          rw [← h]
          exact mapAIChanges_error_retryable _ 0 e1 heq
        · simp at h

/-- C2 (corrected, amended form): when the retry loop hands back a
response, the parsing that follows consumes no further retry attempt; an
unparseable body fails with a non-retryable `AIAnalysisError`, while a
schema-validation failure (missing or wrong-typed required fields, bad
bump, out-of-range confidence, empty category or description) fails with
an `AIAnalysisError` whose `retryable` flag is the constructor default
`true`. -/
theorem C2_parse_failures (d : GitDiff) (rc : RetryConfig)
    (call : Nat → Except AIErr (Option JValue)) (content : Option JValue)
    (hne : d.commits.length ≠ 0)
    (hok : retryOut rc call = .ok content) :
    ((aiAnalyze d rc call).2 = retryCount rc call) ∧
    (content = Option.none →
      (aiAnalyze d rc call).1 =
        .error { message := "Failed to parse AI response", retryable := false }) ∧
    (∀ j e, content = some j → parseAIResponse (some j) = .error e →
      ((aiAnalyze d rc call).1 = .error e ∧ e.retryable = true)) := by
  have key : aiAnalyze d rc call =
      (match parseAIResponse content with
       | .error e => (.error e, retryCount rc call)
       | .ok parsed =>
         (.ok { versionBump := parsed.versionBump
                confidence := calculateConfidence parsed d
                reasoning := parsed.reasoning
                changes := parsed.changes }, retryCount rc call)) := by
    unfold aiAnalyze
    rw [if_neg hne, hok]
  refine ⟨?_, ?_, ?_⟩
  · rw [key]
    cases hp : parseAIResponse content <;> simp [hp]
  · intro hc
    subst hc
    rw [key]
    rfl
  · intro j e hc hpe
    subst hc
    rw [key, hpe]
    exact ⟨rfl, parseAIResponse_some_error_retryable j e hpe⟩

/-- C2 (counterexample): a response that is valid JSON but fails schema
validation produces an `AIAnalysisError` whose `retryable` flag is `true`,
not `false` as the claim states. -/
theorem C2_counterexample :
    ∃ e, parseAIResponse (some (JValue.jobj [])) = .error e ∧ e.retryable = true :=
  ⟨{ message := "Invalid response format from AI" }, rfl, rfl⟩

/-- Witness for C2: a schema-invalid response makes `analyze` fail with the
default-retryable error after the single successful call attempt. -/
theorem C2_witness :
    (aiAnalyze diffFeat rcDefault callInvalid).1 =
      .error { message := "Invalid response format from AI" } ∧
    ({ message := "Invalid response format from AI" } : AIErr).retryable = true :=
  (C2_parse_failures diffFeat rcDefault callInvalid (some (JValue.jobj []))
      (by decide) rfl).2.2
    (JValue.jobj []) { message := "Invalid response format from AI" } rfl rfl


theorem delaysFrom_one (rc : RetryConfig) (n : Nat) :
    delaysFrom rc 1 n = delaysUpTo rc n := by
  simp [delaysFrom, delaysUpTo]

theorem delaysFrom_succ (rc : RetryConfig) (a n : Nat) (ha : 1 ≤ a) :
    delaysFrom rc a (n + 1) =
      min (rc.baseDelay * 2 ^ (a - 1)) rc.maxDelay :: delaysFrom rc (a + 1) n := by
  unfold delaysFrom
  rw [List.range_succ_eq_map, List.map_cons, List.map_map]
  refine congrArg₂ _ (by simp) ?_
  apply List.map_congr_left
  intro i _
  show min (rc.baseDelay * 2 ^ (a - 1 + (i + 1))) rc.maxDelay =
    min (rc.baseDelay * 2 ^ (a + 1 - 1 + i)) rc.maxDelay
  have hexp : a - 1 + (i + 1) = a + 1 - 1 + i := by omega
  rw [hexp]

theorem retryLoop_base (rc : RetryConfig) {α : Type} (f : Nat → Except AIErr α) :
    ∀ (k a : Nat) (last : Option AIErr), 1 ≤ a →
      ((retryLoop rc f a k last).2.2 ≤ k) ∧
      (0 < k → 0 < (retryLoop rc f a k last).2.2) ∧
      ((retryLoop rc f a k last).2.1 =
        delaysFrom rc a ((retryLoop rc f a k last).2.2 - 1)) := by
  intro k
  induction k with
  | zero => intro a last ha; simp [retryLoop, delaysFrom]
  | succ k ih =>
    intro a last ha
    cases hf : f a with
    | ok x =>
      have hstep : retryLoop rc f a (k + 1) last = (.ok x, [], 1) := by
        rw [retryLoop, hf]
      simp [hstep, delaysFrom]
    | error e =>
      by_cases hr : e.retryable = false
      · have hstep : retryLoop rc f a (k + 1) last = (.error e, [], 1) := by
          rw [retryLoop, hf]
          simp [hr]
        simp [hstep, delaysFrom]
      · by_cases hk : k = 0
        · have hstep : retryLoop rc f a (k + 1) last =
              (.error (mkTerminal rc (some e)), [], 1) := by
            rw [retryLoop, hf]
            simp [hr, hk]
          simp [hstep, delaysFrom]
        · have hstep : retryLoop rc f a (k + 1) last =
              ((retryLoop rc f (a + 1) k (some e)).1,
               min (rc.baseDelay * 2 ^ (a - 1)) rc.maxDelay ::
                 (retryLoop rc f (a + 1) k (some e)).2.1,
               (retryLoop rc f (a + 1) k (some e)).2.2 + 1) := by
            rw [retryLoop, hf]
            simp [hr, hk]
          obtain ⟨h1, h2, h3⟩ := ih (a + 1) (some e) (by omega)
          have hcnt : 0 < (retryLoop rc f (a + 1) k (some e)).2.2 :=
            h2 (Nat.pos_of_ne_zero hk)
          refine ⟨by rw [hstep]; simpa using h1, fun _ => by rw [hstep]; simp, ?_⟩
          rw [hstep]
          show min (rc.baseDelay * 2 ^ (a - 1)) rc.maxDelay ::
              (retryLoop rc f (a + 1) k (some e)).2.1 =
            delaysFrom rc a ((retryLoop rc f (a + 1) k (some e)).2.2 + 1 - 1)
          obtain ⟨m, hm⟩ : ∃ m, (retryLoop rc f (a + 1) k (some e)).2.2 = m + 1 :=
            ⟨(retryLoop rc f (a + 1) k (some e)).2.2 - 1, by omega⟩
          rw [h3, hm]
          simp only [Nat.add_sub_cancel]
          rw [delaysFrom_succ rc a m ha]


/-- One run of the retry loop, described from attempt `a` with the first
decisive attempt `j`: everything before `j` fails retryably, and the
loop's result, waits, and attempt count follow the source's loop. -/
theorem retryLoop_run (rc : RetryConfig) {α : Type} (f : Nat → Except AIErr α) :
    ∀ (k a j : Nat) (last : Option AIErr),
      1 ≤ a → a + k = rc.maxRetries + 1 → a ≤ j → j ≤ rc.maxRetries →
      (∀ i, a ≤ i → i < j → ∃ e, f i = .error e ∧ e.retryable = true) →
      ((∀ x, f j = .ok x →
          retryLoop rc f a k last = (.ok x, delaysFrom rc a (j - a), j - a + 1)) ∧
       (∀ e, f j = .error e → e.retryable = false →
          retryLoop rc f a k last = (.error e, delaysFrom rc a (j - a), j - a + 1)) ∧
       (∀ e, j = rc.maxRetries → f j = .error e → e.retryable = true →
          retryLoop rc f a k last =
            (.error (mkTerminal rc (some e)), delaysFrom rc a (j - a), j - a + 1))) := by
  intro k
  induction k with
  | zero =>
    intro a j last ha hinv haj hjm hpre
    omega
  | succ k ih =>
    intro a j last ha hinv haj hjm hpre
    by_cases hj : j = a
    · subst hj
      have hzero : j - j = 0 := by omega
      refine ⟨?_, ?_, ?_⟩
      · intro x hfx
        rw [retryLoop, hfx, hzero]
        simp [delaysFrom]
      · intro e hfe hre
        rw [retryLoop, hfe, hzero]
        simp [delaysFrom, hre]
      · intro e hmax hfe hre
        have hk0 : k = 0 := by omega
        rw [retryLoop, hfe, hzero]
        simp [delaysFrom, hre, hk0]
      
    · have hlt : a < j := by omega
      obtain ⟨e0, hfe0, hre0⟩ := hpre a (le_refl a) hlt
      have hk : k ≠ 0 := by omega
      have hstep : retryLoop rc f a (k + 1) last =
          ((retryLoop rc f (a + 1) k (some e0)).1,
           min (rc.baseDelay * 2 ^ (a - 1)) rc.maxDelay ::
             (retryLoop rc f (a + 1) k (some e0)).2.1,
           (retryLoop rc f (a + 1) k (some e0)).2.2 + 1) := by
        rw [retryLoop, hfe0]
        simp [hre0, hk]
      obtain ⟨ih1, ih2, ih3⟩ := ih (a + 1) j (some e0) (by omega) (by omega) (by omega) hjm
        (fun i hi1 hi2 => hpre i (by omega) hi2)
      have hw : min (rc.baseDelay * 2 ^ (a - 1)) rc.maxDelay ::
          delaysFrom rc (a + 1) (j - (a + 1)) = delaysFrom rc a (j - a) := by
        obtain ⟨m, hm⟩ : ∃ m, j - a = m + 1 := ⟨j - a - 1, by omega⟩
        have hm2 : j - (a + 1) = m := by omega
        rw [hm, hm2, delaysFrom_succ rc a m ha]
      have hn : j - (a + 1) + 1 + 1 = j - a + 1 := by omega
      refine ⟨?_, ?_, ?_⟩
      · intro x hfx
        rw [hstep, ih1 x hfx]
        simp only [Prod.mk.injEq]
        exact ⟨trivial, hw, hn⟩
      · intro e hfe hre
        rw [hstep, ih2 e hfe hre]
        simp only [Prod.mk.injEq]
        exact ⟨trivial, hw, hn⟩
      · intro e hmax hfe hre
        rw [hstep, ih3 e hmax hfe hre]
        simp only [Prod.mk.injEq]
        exact ⟨trivial, hw, hn⟩

/-- C6 (confirmed): the retry loop performs at most `maxRetries` attempts;
its waits follow the doubling schedule `baseDelay * 2 ^ (attempt - 1)`
capped at `maxDelay`; an attempt is retried only after a retryable
failure; a non-retryable failure aborts at that attempt with the original
error; and when every attempt fails retryably the loop raises the terminal
non-retryable `AIAnalysisError` wrapping the last underlying error. -/
theorem C6_retry_policy (rc : RetryConfig) {α : Type} (f : Nat → Except AIErr α) :
    (retryCount rc f ≤ rc.maxRetries) ∧
    (retryWaits rc f = delaysUpTo rc (retryCount rc f - 1)) ∧
    (∀ j x, 1 ≤ j → j ≤ rc.maxRetries → f j = .ok x →
      (∀ i, 1 ≤ i → i < j → ∃ e, f i = .error e ∧ e.retryable = true) →
      execRetry rc f = (.ok x, delaysUpTo rc (j - 1), j)) ∧
    (∀ j e, 1 ≤ j → j ≤ rc.maxRetries → f j = .error e → e.retryable = false →
      (∀ i, 1 ≤ i → i < j → ∃ e2, f i = .error e2 ∧ e2.retryable = true) →
      execRetry rc f = (.error e, delaysUpTo rc (j - 1), j)) ∧
    (∀ e, 1 ≤ rc.maxRetries → f rc.maxRetries = .error e → e.retryable = true →
      (∀ i, 1 ≤ i → i < rc.maxRetries → ∃ e2, f i = .error e2 ∧ e2.retryable = true) →
      execRetry rc f =
        (.error (mkTerminal rc (some e)), delaysUpTo rc (rc.maxRetries - 1), rc.maxRetries) ∧
      (mkTerminal rc (some e)).retryable = false ∧
      (mkTerminal rc (some e)).causeMsg = some e.message) := by
  obtain ⟨hb1, _, hb3⟩ := retryLoop_base rc f rc.maxRetries 1 Option.none (le_refl 1)
  refine ⟨hb1, ?_, ?_, ?_, ?_⟩
  · show (execRetry rc f).2.1 = delaysUpTo rc ((execRetry rc f).2.2 - 1)
    rw [← delaysFrom_one rc]
    exact hb3
  · intro j x hj1 hjm hfx hpre
    have h := (retryLoop_run rc f rc.maxRetries 1 j Option.none (le_refl 1) (by omega) hj1
      hjm (fun i hi1 hi2 => hpre i hi1 hi2)).1 x hfx
    rw [execRetry, h, delaysFrom_one]
    have : j - 1 + 1 = j := by omega
    rw [this]
  · intro j e hj1 hjm hfe hre hpre
    have h := (retryLoop_run rc f rc.maxRetries 1 j Option.none (le_refl 1) (by omega) hj1
      hjm (fun i hi1 hi2 => hpre i hi1 hi2)).2.1 e hfe hre
    rw [execRetry, h, delaysFrom_one]
    have : j - 1 + 1 = j := by omega
    rw [this]
  · intro e hm1 hfe hre hpre
    have h := (retryLoop_run rc f rc.maxRetries 1 rc.maxRetries Option.none (le_refl 1)
      (by omega) hm1 (le_refl _) (fun i hi1 hi2 => hpre i hi1 hi2)).2.2 e rfl hfe hre
    refine ⟨?_, rfl, rfl⟩
    rw [execRetry, h, delaysFrom_one]
    have : rc.maxRetries - 1 + 1 = rc.maxRetries := by omega
    rw [this]

/-- Sanity check of the retry model on the default configuration: two
backoff waits of 1000 ms and 2000 ms, success on the third attempt. -/
theorem execRetry_flaky_run :
    execRetry rcDefault callFlaky = (.ok 42, [1000, 2000], 3) := by
  rfl


/-- Character facts for a decimal digit value below 10. -/
theorem digitChar_facts (d : Nat) (hd : d < 10) :
    (Char.ofNat (48 + d)).isDigit = true ∧ (Char.ofNat (48 + d)).toNat = 48 + d := by
  interval_cases d <;> exact ⟨by decide, by decide⟩

theorem natChars_ne_nil (n : Nat) : natChars n ≠ [] := by
  rw [natChars]
  split
  · simp
  · simp

theorem natChars_digits (n : Nat) : ∀ c ∈ natChars n, c.isDigit = true := by
  induction n using Nat.strong_induction_on with
  | _ n ih =>
    rw [natChars]
    split
    · rename_i h
      intro c hc
      simp only [List.mem_singleton] at hc
      rw [hc]
      exact (digitChar_facts n h).1
    · rename_i h
      intro c hc
      rw [List.mem_append] at hc
      rcases hc with hc | hc
      · exact ih (n / 10) (Nat.div_lt_self (by omega) (by omega)) c hc
      · simp only [List.mem_singleton] at hc
        rw [hc]
        exact (digitChar_facts (n % 10) (Nat.mod_lt n (by omega))).1

/-- The digit fold applied to the decimal rendering recovers the number,
for any accumulator. -/
theorem foldl_natChars (n : Nat) : ∀ a : Nat,
    (natChars n).foldl (fun acc c => 10 * acc + (c.toNat - 48)) a =
      a * 10 ^ (natChars n).length + n := by
  induction n using Nat.strong_induction_on with
  | _ n ih =>
    intro a
    rw [natChars]
    split
    · rename_i h
      simp only [List.foldl_cons, List.foldl_nil, List.length_singleton]
      rw [(digitChar_facts n h).2]
      omega
    · rename_i h
      rw [List.foldl_append, List.length_append]
      simp only [List.foldl_cons, List.foldl_nil, List.length_singleton]
      rw [ih (n / 10) (Nat.div_lt_self (by omega) (by omega)) a]
      rw [(digitChar_facts (n % 10) (Nat.mod_lt n (by omega))).2]
      have hmod : 48 + n % 10 - 48 = n % 10 := by omega
      rw [hmod]
      rw [pow_succ]
      have := Nat.div_add_mod n 10
      ring_nf
      omega

theorem parseNatDigits_natChars (n : Nat) : parseNatDigits (natChars n) = n := by
  unfold parseNatDigits
  rw [foldl_natChars n 0]
  simp

/-- `takeWhile` over a block that satisfies the predicate followed by an
element that does not. -/
theorem takeWhile_block {p : Char → Bool} :
    ∀ (xs : List Char) (y : Char) (ys : List Char), (∀ c ∈ xs, p c = true) → p y = false →
      (xs ++ y :: ys).takeWhile p = xs ∧ (xs ++ y :: ys).dropWhile p = y :: ys := by
  intro xs
  induction xs with
  | nil =>
    intro y ys _ hy
    simp [List.takeWhile_cons, List.dropWhile_cons, hy]
  | cons x xs ih =>
    intro y ys hall hy
    have hx : p x = true := hall x (by simp)
    obtain ⟨ht, hd⟩ := ih y ys (fun c hc => hall c (by simp [hc])) hy
    simp [List.takeWhile_cons, List.dropWhile_cons, hx, ht, hd]

/-- `takeWhile` over a block that satisfies the predicate and ends the
list. -/
theorem takeWhile_all {p : Char → Bool} :
    ∀ xs : List Char, (∀ c ∈ xs, p c = true) →
      xs.takeWhile p = xs ∧ xs.dropWhile p = [] := by
  intro xs
  induction xs with
  | nil => intro _; simp
  | cons x xs ih =>
    intro hall
    have hx : p x = true := hall x (by simp)
    obtain ⟨ht, hd⟩ := ih (fun c hc => hall c (by simp [hc]))
    simp [List.takeWhile_cons, List.dropWhile_cons, hx, ht, hd]

/-- `parseCore` on three non-empty digit blocks separated by dots. -/
theorem parseCore_digits (A B C : List Char)
    (hA : ∀ c ∈ A, c.isDigit = true) (hAne : A ≠ [])
    (hB : ∀ c ∈ B, c.isDigit = true) (hBne : B ≠ [])
    (hC : ∀ c ∈ C, c.isDigit = true) (hCne : C ≠ []) :
    parseCore (A ++ '.' :: (B ++ '.' :: C)) =
      some (parseNatDigits A, parseNatDigits B, parseNatDigits C, []) := by
  have hdot : ('.').isDigit = false := by decide
  obtain ⟨htA, _⟩ := takeWhile_block A '.' (B ++ '.' :: C) hA hdot
  obtain ⟨htB, _⟩ := takeWhile_block B '.' C hB hdot
  obtain ⟨htC, _⟩ := takeWhile_all C hC
  have hAe : A.isEmpty = false := by
    cases A with
    | nil => exact absurd rfl hAne
    | cons x xs => rfl
  have hBe : B.isEmpty = false := by
    cases B with
    | nil => exact absurd rfl hBne
    | cons x xs => rfl
  have hCe : C.isEmpty = false := by
    cases C with
    | nil => exact absurd rfl hCne
    | cons x xs => rfl
  unfold parseCore
  simp only [htA, List.drop_left, hAe, Bool.false_eq_true, if_false]
  simp only [htB, List.drop_left, hBe, Bool.false_eq_true, if_false]
  simp only [htC, List.drop_length, hCe, Bool.false_eq_true, if_false]

/-- C8 (confirmed): for every version built from plain numeric components
(no prerelease, no build), parsing the formatted string returns exactly
that version. -/
theorem C8_parse_format_roundtrip (ma mi pa : Nat) :
    parseVersion (formatVersion { major := ma, minor := mi, patch := pa }) =
      .ok { major := ma, minor := mi, patch := pa } := by
  have hchars : (formatVersion { major := ma, minor := mi, patch := pa }).toList =
      natChars ma ++ '.' :: (natChars mi ++ '.' :: natChars pa) := by
    show formatVersionChars { major := ma, minor := mi, patch := pa } = _
    simp [formatVersionChars]
  have hne : formatVersion { major := ma, minor := mi, patch := pa } ≠ "" := by
    intro h
    have h2 := congrArg String.toList h
    rw [hchars] at h2
    have h3 : natChars ma ++ '.' :: (natChars mi ++ '.' :: natChars pa) = [] := h2
    rcases List.append_eq_nil.mp h3 with ⟨h4, _⟩
    exact natChars_ne_nil ma h4
  obtain ⟨c, rest, hcr⟩ : ∃ c rest, natChars ma = c :: rest := by
    cases h : natChars ma with
    | nil => exact absurd h (natChars_ne_nil ma)
    | cons x xs => exact ⟨x, xs, rfl⟩
  have hcd : c.isDigit = true := natChars_digits ma c (by rw [hcr]; simp)
  have hcv : (c == 'v') = false := by
    by_cases h : c = 'v'
    · rw [h] at hcd
      exact absurd hcd (by decide)
    · simp [h]
  have hstrip : stripLeadingV (natChars ma ++ '.' :: (natChars mi ++ '.' :: natChars pa)) =
      natChars ma ++ '.' :: (natChars mi ++ '.' :: natChars pa) := by
    rw [hcr]
    show stripLeadingV (c :: (rest ++ '.' :: (natChars mi ++ '.' :: natChars pa))) = _
    unfold stripLeadingV
    simp [hcv]
  unfold parseVersion
  rw [if_neg hne, hchars]
  simp only [hstrip,
    parseCore_digits (natChars ma) (natChars mi) (natChars pa)
      (natChars_digits ma) (natChars_ne_nil ma)
      (natChars_digits mi) (natChars_ne_nil mi)
      (natChars_digits pa) (natChars_ne_nil pa),
    parseNatDigits_natChars, parseTail]

end Releasebot
